import Mathlib

/-!
Verification of the astrobotany plant-game request handlers
(`src/astrobotany/views.py`) and item catalog (`src/astrobotany/items.py`).

Python strings are modelled as lists of characters (`Str`), machine
integers as `Int`/`Nat`, the per-user inventory as a total map from item
id to quantity, and the database tables as Lean lists.  Handlers are
translated one-to-one from the source; operations implemented in modules
that are not part of the provided sources (`models.py`, `constants.py`)
are modelled from the specification and carry a doc comment saying so.
-/

namespace Astrobotany

/-! ### Python string primitives -/

/-- Python strings, modelled as lists of characters. -/
abbrev Str := List Char

/-- Lean string literal to `Str`. -/
def str (s : String) : Str := s.data

/-- The whitespace characters stripped by Python `str.strip()`. -/
def pySpace (c : Char) : Bool :=
  c = ' ' ∨ c = '\t' ∨ c = '\n' ∨ c = '\r' ∨ c = Char.ofNat 11 ∨ c = Char.ofNat 12

/-- Python `str.strip()`: drop whitespace from both ends. -/
def pyStrip (s : Str) : Str :=
  ((s.dropWhile pySpace).reverse.dropWhile pySpace).reverse

/-- Python `str.lower()` (per-character, as used on the ASCII answers here). -/
def pyLower (s : Str) : Str := s.map Char.toLower

/-! ### Gemini response statuses (jetforce `Status`) -/

/-- The jetforce response status codes used by the handlers under scrutiny. -/
inductive GStatus where
  | input
  | success
  | redirectTemporary
  | badRequest
  | notFound
deriving DecidableEq

/-! ### Plant records

Only the fields read by the handlers under scrutiny are modelled.
`models.py` is not part of the provided sources; the field list follows
the spec's persisted-state layout (owner id, name, stage, dead flag,
watered_at, score). -/

structure Plant where
  user_id : Nat
  user_active : Bool
  name : Str
  stage : Nat
  dead : Bool
  score : Int
  watered_at : Int
deriving DecidableEq

/-! ### `name` handler (views.py lines 529-538)

```python
def name(request):
    if not request.query:
        return Response(Status.INPUT, "Enter a new nickname for your plant:")
    request.plant.name = request.query[:40]
    ...
    return Response(Status.REDIRECT_TEMPORARY, "/app/plant")
```
-/

def name (plant : Plant) (query : Str) : GStatus × Plant :=
  if query = [] then
    (GStatus.input, plant)
  else
    (GStatus.redirectTemporary, { plant with name := query.take 40 })

/-- C7: For every non-empty query string q, the name handler sets the plant's
display name to exactly the first 40 characters of q (so the stored name never
exceeds 40 characters), and for an empty query it returns an input prompt
without changing the name. -/
theorem name_sets_display_name (plant : Plant) (query : Str) :
    (query ≠ [] →
      (name plant query).1 = GStatus.redirectTemporary ∧
      (name plant query).2.name = query.take 40 ∧
      (name plant query).2.name.length ≤ 40) ∧
    (query = [] →
      (name plant query).1 = GStatus.input ∧
      (name plant query).2 = plant) := by
  constructor
  · intro hq
    simp [name, hq, List.length_take_le]
  · intro hq
    simp [name, hq]

/-- Witness for C7 at a concrete plant and query. -/
theorem name_sets_display_name_witness :
    let p : Plant :=
      { user_id := 1, user_active := true, name := str "old", stage := 2,
        dead := false, score := 5, watered_at := 0 }
    (name p (str "Audrey II")).2.name = (str "Audrey II").take 40 := by
  have h := name_sets_display_name
    { user_id := 1, user_active := true, name := str "old", stage := 2,
      dead := false, score := 5, watered_at := 0 } (str "Audrey II")
  exact (h.1 (by decide)).2.1

/-! ### Item catalog (`src/astrobotany/items.py`)

```python
class Item:
    def __init__(self, price, name, description, for_sale=False):
        self.item_id = len(registry) + 1
        ...
        registry[self.item_id] = self

registry: Dict[int, Item] = {}
```

The registry dict is modelled as an association list in insertion order
(Python dicts preserve insertion order).  Descriptions are display-only
text (`dedent(...).strip()` in the source) and are carried here in
abridged single-line form; no claim depends on them. -/

structure Item where
  item_id : Nat
  price : Int
  name : String
  description : String
  for_sale : Bool
deriving DecidableEq

/-- `registry[k] = v` on a Python dict: overwrite the slot if the key is
present, otherwise append in insertion order. -/
def dictInsert (reg : List (Nat × Item)) (k : Nat) (v : Item) : List (Nat × Item) :=
  if reg.any fun p => p.1 = k then
    reg.map fun p => if p.1 = k then (k, v) else p
  else
    reg ++ [(k, v)]

/-- `Item.__init__`: the new item gets id `len(registry) + 1` and is inserted
into the registry under that id. -/
def registerItem (reg : List (Nat × Item)) (price : Int) (nm descr : String)
    (forSale : Bool) : List (Nat × Item) :=
  let id := reg.length + 1
  dictInsert reg id
    { item_id := id, price := price, name := nm, description := descr, for_sale := forSale }

/-- Modelled from the spec: `constants.COLORS_PLAIN` lives in
`src/astrobotany/constants.py`, which is not among the provided sources.
The spec fixes only that petals form a fixed set of colors; this list
reconstructs the plain color names (the source special-cases the articles
for "orange" and "indigo", suggesting the usual rainbow colors).  Every
property proved about the registry below is independent of the exact
entries of this list. -/
def COLORS_PLAIN : List String :=
  ["red", "orange", "yellow", "green", "blue", "indigo", "violet", "white", "black", "gold"]

/-- The article special-casing for petal descriptions in `items.py`. -/
def petalArticle (c : String) : String :=
  if c = "orange" ∨ c = "indigo" then "an " ++ c else "a " ++ c

/-- One `(price, name, description, for_sale)` registration per petal color. -/
def petalSpecs (colors : List String) : List (Int × String × String × Bool) :=
  colors.map fun c =>
    (0, "flower petal [" ++ c ++ "]",
     "A single flower petal from " ++ petalArticle c ++ " plant. Graceful, delicate, and reserved.",
     false)

/-- The module-level `Item(...)` constructor calls of `items.py`, in source
order: paperclip, fertilizer, one petal per color, coin, postcard. -/
def itemSpecs : List (Int × String × String × Bool) :=
  [(0, "paper clip",
    "A length of wire bent into flat loops that is used to hold papers together. Origin unknown.",
    false),
   (75, "EZ-Grow fertilizer",
    "A bottle of plant fertilizer. When applied, will increase plant growth rate by 1.5x for 3 days.",
    true)]
  ++ petalSpecs COLORS_PLAIN
  ++ [(1, "coin",
       "A copper coin. Can be used to purchase items at the shop.",
       false),
      (20, "postcard",
       "A blank postcard. Can be used to send a private message to another user.",
       true)]

/-- Running the module body of `items.py`: each constructor call mutates the
registry in order. -/
def buildRegistry (specs : List (Int × String × String × Bool)) : List (Nat × Item) :=
  specs.foldl (fun reg s => registerItem reg s.1 s.2.1 s.2.2.1 s.2.2.2) []

/-- The item registry after `items.py` has been imported. -/
def registry : List (Nat × Item) := buildRegistry itemSpecs

/-- `items.fertilizer` (second registration, id 2). -/
def fertilizer : Item :=
  { item_id := 2, price := 75, name := "EZ-Grow fertilizer",
    description := "A bottle of plant fertilizer. When applied, will increase plant growth rate by 1.5x for 3 days.",
    for_sale := true }

/-- `items.coin` (registered after the petals). -/
def coin : Item :=
  { item_id := 13, price := 1, name := "coin",
    description := "A copper coin. Can be used to purchase items at the shop.",
    for_sale := false }

/-- `items.postcard` (last registration). -/
def postcard : Item :=
  { item_id := 14, price := 20, name := "postcard",
    description := "A blank postcard. Can be used to send a private message to another user.",
    for_sale := true }

/-- C8: item registration assigns each new `Item` the id `len(registry)+1`
and inserts it under that id, so after constructing the module's items in
order the registry maps ids 1..n bijectively to the items in construction
order (keys are exactly 1..n in order, no id reused or overwritten — the
dict never shrinks or replaces), every price is a non-negative integer,
and the coin item has price exactly 1. -/
theorem registry_ids_and_prices :
    registry.map Prod.fst = List.range' 1 itemSpecs.length ∧
    registry.length = itemSpecs.length ∧
    (registry.map fun p => (p.2.price, p.2.name, p.2.description, p.2.for_sale)) = itemSpecs ∧
    (registry.all fun p => decide (0 ≤ p.2.price) && (p.1 == p.2.item_id)) = true ∧
    registry.lookup coin.item_id = some coin ∧
    coin.price = 1 := by
  refine ⟨by decide, by decide, by decide, by decide, by decide, by decide⟩

/-! ### Inventory ledger

`models.User.add_item` / `remove_item` live in `models.py`, which is not
among the provided sources; they are modelled from the spec (section 4.4). -/

/-- Per-user inventory: item id → owned quantity. -/
abbrev Inventory := Nat → Int

/-- Modelled from the spec: `remove_item(identity, item, qty)` "succeeds and
decrements only if current quantity ≥ qty; otherwise rejected (no partial
deduction)".  `none` is the rejected case (the source returns `False`). -/
def remove_item (inv : Inventory) (itemId : Nat) (qty : Int) : Option Inventory :=
  if qty ≤ inv itemId then
    some fun j => if j = itemId then inv j - qty else inv j
  else
    none

/-- Modelled from the spec: `add_item(identity, item, qty)` "increments the
slot; creates the slot if absent". -/
def add_item (inv : Inventory) (itemId : Nat) (qty : Int) : Inventory :=
  fun j => if j = itemId then inv j + qty else inv j

/-- A jetforce `Response(status, meta)` as constructed by the handlers.
For `SUCCESS` responses the meta field holds the rendered template body in
the source; bodies are display-only and elided here. -/
structure Response where
  status : GStatus
  meta : String
deriving DecidableEq

/-! ### `store_purchase` handler (views.py lines 405-426)

```python
def store_purchase(request, item_id):
    item = items.registry.get(int(item_id))
    if item is None: return BAD_REQUEST "Item was not found"
    if not item.for_sale: return BAD_REQUEST "Item is not for sale"
    if not request.query: return INPUT "Confirm: ..."
    if request.query.strip().lower() in ("y", "yes"):
        if request.user.remove_item(items.coin, quantity=item.price):
            request.user.add_item(item)
        else:
            return BAD_REQUEST "Insufficient funds"
    return REDIRECT_TEMPORARY "/app/store"
```
-/

def store_purchase (inv : Inventory) (item_id : Nat) (query : Str) : Response × Inventory :=
  match registry.lookup item_id with
  | none => ({ status := .badRequest, meta := "Item was not found" }, inv)
  | some item =>
    if item.for_sale = false then
      ({ status := .badRequest, meta := "Item is not for sale" }, inv)
    else if query = [] then
      ({ status := .input,
         meta := "Confirm: purchase 1 " ++ item.name ++ " for " ++ toString item.price
                 ++ " coins. [Y]es/[N]o." }, inv)
    else if pyLower (pyStrip query) = str "y" ∨ pyLower (pyStrip query) = str "yes" then
      match remove_item inv coin.item_id item.price with
      | some inv2 =>
          ({ status := .redirectTemporary, meta := "/app/store" }, add_item inv2 item.item_id 1)
      | none =>
          ({ status := .badRequest, meta := "Insufficient funds" }, inv)
    else
      ({ status := .redirectTemporary, meta := "/app/store" }, inv)

/-- A successful association-list lookup yields a member of the list. -/
theorem lookup_mem {l : List (Nat × Item)} {k : Nat} {v : Item}
    (h : l.lookup k = some v) : (k, v) ∈ l := by
  rcases List.lookup_eq_some_iff.mp h with ⟨l₁, l₂, rfl, -⟩
  simp

/-- Every for-sale entry of the concrete registry is keyed by its own item id
and that id is not the coin's. -/
theorem forSale_not_coin :
    (registry.all fun p =>
      !p.2.for_sale || ((p.1 == p.2.item_id) && !(p.2.item_id == coin.item_id))) = true := by
  decide

/-- An affirmative answer is necessarily non-empty. -/
theorem affirmative_ne_nil {q : Str}
    (ha : pyLower (pyStrip q) = str "y" ∨ pyLower (pyStrip q) = str "yes") : q ≠ [] := by
  intro hq
  subst hq
  rcases ha with h | h <;> exact absurd h (by decide)

/-- C1: for every purchase request with a registered, for-sale item of price P
and an affirmative confirmation query: if `remove_item(coin, quantity=P)` on
the buyer fails, the handler returns an "Insufficient funds" error and the
inventory is unchanged (no item granted); if it succeeds, exactly one unit of
the item is added, the buyer's coin quantity drops by exactly P, and every
other slot is untouched. -/
theorem store_purchase_atomic (inv : Inventory) (item_id : Nat) (query : Str) (item : Item)
    (hl : registry.lookup item_id = some item)
    (hs : item.for_sale = true)
    (ha : pyLower (pyStrip query) = str "y" ∨ pyLower (pyStrip query) = str "yes") :
    (remove_item inv coin.item_id item.price = none →
      store_purchase inv item_id query
        = ({ status := .badRequest, meta := "Insufficient funds" }, inv)) ∧
    (remove_item inv coin.item_id item.price ≠ none →
      (store_purchase inv item_id query).1.status = .redirectTemporary ∧
      (store_purchase inv item_id query).2 item.item_id = inv item.item_id + 1 ∧
      (store_purchase inv item_id query).2 coin.item_id = inv coin.item_id - item.price ∧
      ∀ j, j ≠ item.item_id → j ≠ coin.item_id →
        (store_purchase inv item_id query).2 j = inv j) := by
  have hqne : query ≠ [] := affirmative_ne_nil ha
  have hid : item.item_id ≠ coin.item_id ∧ item_id = item.item_id := by
    have hmem := lookup_mem hl
    have hall := forSale_not_coin
    rw [List.all_eq_true] at hall
    have := hall _ hmem
    simp only [hs, Bool.not_true, Bool.false_or, Bool.and_eq_true, beq_iff_eq,
      Bool.not_eq_true', beq_eq_false_iff_ne, ne_eq] at this
    exact ⟨this.2, this.1⟩
  constructor
  · intro hfail
    simp only [store_purchase, hl, hs, if_neg hqne, if_pos ha, hfail]
    simp
  · intro hsucc
    rcases hinv2 : remove_item inv coin.item_id item.price with _ | inv2
    · exact absurd hinv2 hsucc
    have hle : item.price ≤ inv coin.item_id := by
      by_contra hgt
      simp [remove_item, hgt] at hinv2
    have hinv2eq : inv2 = fun j => if j = coin.item_id then inv j - item.price else inv j := by
      simp only [remove_item, if_pos hle, Option.some.injEq] at hinv2
      exact hinv2.symm
    have hrun : store_purchase inv item_id query
        = ({ status := .redirectTemporary, meta := "/app/store" }, add_item inv2 item.item_id 1) := by
      simp only [store_purchase, hl, hs, if_neg hqne, if_pos ha, hinv2]
      simp
    rw [hrun]
    refine ⟨rfl, ?_, ?_, ?_⟩
    · simp [add_item, hinv2eq, hid.1]
    · simp [add_item, hinv2eq, if_neg (Ne.symm hid.1), hid.1]
    · intro j hj1 hj2
      simp [add_item, hinv2eq, hj1, hj2]

/-- Witness for C1: buying fertilizer (id 2, price 75, for sale) with 100
coins and the answer "y" adds one fertilizer and removes 75 coins. -/
theorem store_purchase_atomic_witness :
    registry.lookup 2 = some fertilizer ∧
    (store_purchase (fun _ => 100) 2 (str "y")).2 fertilizer.item_id = 100 + 1 ∧
    (store_purchase (fun _ => 100) 2 (str "y")).2 coin.item_id = 100 - 75 := by
  have h := store_purchase_atomic (fun _ => 100) 2 (str "y") fertilizer
    (by decide) (by decide) (Or.inl (by decide))
  have hsucc : remove_item (fun _ => 100) coin.item_id fertilizer.price ≠ none := by
    simp [remove_item, coin, fertilizer]
  have h2 := h.2 hsucc
  exact ⟨by decide, h2.2.1, h2.2.2.1⟩

/-! ### `harvest` handler (views.py lines 508-526)

```python
@app.route("/app/plant/harvest")
@app.route("/app/plant/harvest/confirm")
def harvest(request):
    if not (request.plant.dead or request.plant.stage == 5):
        return BAD_REQUEST "You shouldn't be here!"
    if request.path.endswith("/confirm"):
        if request.query.strip() == f"Goodbye {request.plant.name}":
            request.plant.harvest()
            return REDIRECT_TEMPORARY "/app/epilog/1"
        elif request.query:
            return REDIRECT_TEMPORARY "/app/plant/harvest"
        else:
            return INPUT 'Type "Goodbye ..." ...'
    return SUCCESS <harvest page>
```

`isConfirm` is `request.path.endswith("/confirm")`; the returned boolean
records whether `plant.harvest()` was invoked. -/

def harvest (plant : Plant) (isConfirm : Bool) (query : Str) : Response × Bool :=
  if ¬ (plant.dead = true ∨ plant.stage = 5) then
    ({ status := .badRequest, meta := "You shouldn't be here!" }, false)
  else if isConfirm then
    if pyStrip query = str "Goodbye " ++ plant.name then
      ({ status := .redirectTemporary, meta := "/app/epilog/1" }, true)
    else if query ≠ [] then
      ({ status := .redirectTemporary, meta := "/app/plant/harvest" }, false)
    else
      ({ status := .input,
         meta := "Type \"Goodbye " ++ String.mk plant.name ++ "\" to send off your plant." },
       false)
  else
    ({ status := .success, meta := "" }, false)

/-- A dead plant named "Bob", for the C4 counterexample. -/
def deadBob : Plant :=
  { user_id := 1, user_active := true, name := str "Bob", stage := 3,
    dead := true, score := 4, watered_at := 0 }

/-- C4 counterexample: on the base route `/app/plant/harvest` (also served by
this handler) with a dead plant and a query that is exactly the confirmation
phrase, the stage/dead precondition holds and the request carries the exact
confirmation query, yet `plant.harvest()` is not invoked — the claimed
"if and only if" fails; likewise an empty query on the base route yields the
harvest page (SUCCESS), not a prompt. -/
theorem harvest_claim_fails_on_base_route :
    (deadBob.dead = true ∨ deadBob.stage = 5) ∧
    pyStrip (str "Goodbye Bob") = str "Goodbye " ++ deadBob.name ∧
    (harvest deadBob false (str "Goodbye Bob")).2 = false ∧
    (harvest deadBob false []).1.status = GStatus.success := by
  refine ⟨by decide, by decide, by decide, by decide⟩

/-- C4 (amended): `plant.harvest()` is invoked iff the plant satisfies
(dead or stage == 5) AND the request is on the `/confirm` route AND its query
equals "Goodbye <plant name>" after stripping; a request failing the
stage/dead precondition is rejected with BAD_REQUEST on either route; on the
`/confirm` route an empty query returns an input prompt and any other
non-matching non-empty query redirects back without harvesting. -/
theorem harvest_confirmation (plant : Plant) (isConfirm : Bool) (query : Str) :
    ((harvest plant isConfirm query).2 = true ↔
      ((plant.dead = true ∨ plant.stage = 5) ∧ isConfirm = true ∧
        pyStrip query = str "Goodbye " ++ plant.name)) ∧
    (¬ (plant.dead = true ∨ plant.stage = 5) →
      (harvest plant isConfirm query).1.status = .badRequest) ∧
    ((plant.dead = true ∨ plant.stage = 5) → isConfirm = true → query = [] →
      (harvest plant isConfirm query).1.status = .input) ∧
    ((plant.dead = true ∨ plant.stage = 5) → isConfirm = true → query ≠ [] →
      pyStrip query ≠ str "Goodbye " ++ plant.name →
      (harvest plant isConfirm query).1.status = .redirectTemporary ∧
      (harvest plant isConfirm query).2 = false) := by
  by_cases hpre : plant.dead = true ∨ plant.stage = 5
  · by_cases hc : isConfirm = true
    · by_cases hq : pyStrip query = str "Goodbye " ++ plant.name
      · have hqe : query ≠ [] := by
          intro hnil
          rw [hnil] at hq
          have : (str "Goodbye " ++ plant.name).length = 0 := by
            rw [← hq]
            decide
          simp [str] at this
        simp [harvest, hpre, hc, hq, hqe]
      · by_cases hqe : query = []
        · subst hqe
          simp [harvest, hpre, hc, hq]
        · simp [harvest, hpre, hc, hq, hqe]
    · simp [harvest, hpre, hc]
  · simp [harvest, hpre]

/-- Witness for C4 (amended): a dead plant named "Bob" with query
" Goodbye Bob " on the confirm route is harvested; a live stage-2 plant is
rejected with BAD_REQUEST. -/
theorem harvest_confirmation_witness :
    (harvest deadBob true (str " Goodbye Bob ")).2 = true ∧
    (harvest { deadBob with dead := false, stage := 2 } true (str "x")).1.status
      = GStatus.badRequest := by
  constructor
  · exact (harvest_confirmation deadBob true (str " Goodbye Bob ")).1.mpr
      ⟨by decide, rfl, by decide⟩
  · exact (harvest_confirmation { deadBob with dead := false, stage := 2 } true
      (str "x")).2.1 (by decide)

/-! ### Plant-record event traces

For the temporal claims, each handler is paired with the list of operations
it performs on the TARGET plant record, in program order. -/

/-- Observable operations on the target plant record. -/
inductive Ev where
  | readState
  | refresh
  | water
  | pickPetal
  | save
deriving DecidableEq

/-- Modelled from the spec: `models.Plant.stage_str`, the display name of the
ordinal stage (spec section 3: seed → ... → flowering → seed-bearing).  The
claims depend only on stage 4 and no other stage rendering as "flowering". -/
def stage_str (p : Plant) : Str :=
  match p.stage with
  | 0 => str "seed"
  | 1 => str "seedling"
  | 2 => str "young plant"
  | 3 => str "mature plant"
  | 4 => str "flowering"
  | 5 => str "seed-bearing"
  | _ => str ""

/-- A stage other than 4 never renders as "flowering". -/
theorem stage_str_ne_flowering {p : Plant} (h : p.stage ≠ 4) :
    stage_str p ≠ str "flowering" := by
  intro hcontra
  unfold stage_str at hcontra
  split at hcontra
  · exact absurd hcontra (by decide)
  · exact absurd hcontra (by decide)
  · exact absurd hcontra (by decide)
  · exact absurd hcontra (by decide)
  · next heq => exact h heq
  · exact absurd hcontra (by decide)
  · exact absurd hcontra (by decide)

/-- views.py lines 66-109, logged-in path of the `authenticate` wrapper:

```python
request.plant.refresh()
response = func(request, **kwargs)
request.plant.save()
return response
```

`refreshFn` abstracts `models.Plant.refresh` (not among the provided
sources); the wrapped view receives the refreshed plant. -/
def authenticate (refreshFn : Plant → Plant) (func : Plant → Response × List Ev)
    (plant : Plant) : Response × List Ev :=
  let plant2 := refreshFn plant
  let response := func plant2
  (response.1, Ev.refresh :: response.2 ++ [Ev.save])

/-- `search` handler, views.py lines 488-495:

```python
if request.plant.dead or request.plant.stage != 4:
    return BAD_REQUEST "You shouldn't be here!"
request.session["alert"] = request.plant.pick_petal()
return REDIRECT_TEMPORARY "/app/plant"
```
-/
def search (plant : Plant) : Response × List Ev :=
  if plant.dead = true ∨ plant.stage ≠ 4 then
    ({ status := .badRequest, meta := "You shouldn't be here!" }, [Ev.readState])
  else
    ({ status := .redirectTemporary, meta := "/app/plant" }, [Ev.readState, Ev.pickPetal])

/-- `visit_plant_water` handler, views.py lines 575-588.  `target = none`
encodes `User.get_or_none` finding no user, `isSelf` encodes
`request.user == user`; `user_id` is the hex id in the route. -/
def visit_plant_water (target : Option Plant) (isSelf : Bool) (user_id : String) :
    Response × List Ev :=
  match target with
  | none => ({ status := .notFound, meta := "User not found" }, [])
  | some _ =>
    if isSelf then
      ({ status := .redirectTemporary, meta := "/app/plant" }, [])
    else
      ({ status := .redirectTemporary, meta := "/app/visit/" ++ user_id },
       [Ev.refresh, Ev.water, Ev.save])

/-- `visit_plant_search` handler, views.py lines 591-607:

```python
if user.plant.dead or user.plant.stage_str != "flowering":
    return BAD_REQUEST "You shouldn't be here!"
user.plant.refresh()
request.session["alert"] = user.plant.pick_petal(request.user)
user.plant.save()
```

Note the dead/flowering read precedes `refresh()` in the source. -/
def visit_plant_search (target : Option Plant) (isSelf : Bool) (user_id : String) :
    Response × List Ev :=
  match target with
  | none => ({ status := .notFound, meta := "User not found" }, [])
  | some p =>
    if isSelf then
      ({ status := .redirectTemporary, meta := "/app/plant" }, [])
    else if p.dead = true ∨ stage_str p ≠ str "flowering" then
      ({ status := .badRequest, meta := "You shouldn't be here!" }, [Ev.readState])
    else
      ({ status := .redirectTemporary, meta := "/app/visit/" ++ user_id },
       [Ev.readState, Ev.refresh, Ev.pickPetal, Ev.save])

/-- Replay the actor-inventory effect of a trace: only `pick_petal` changes
the actor's inventory (it grants one petal item, `petalItem` abstracting the
randomly drawn color). -/
def applyEvents (petalItem : Nat) (inv : Inventory) : List Ev → Inventory
  | [] => inv
  | Ev.pickPetal :: rest => applyEvents petalItem (add_item inv petalItem 1) rest
  | _ :: rest => applyEvents petalItem inv rest

/-- A live flowering plant, used by the C2 counterexample and witnesses. -/
def floweringPlant : Plant :=
  { user_id := 2, user_active := true, name := str "Fern", stage := 4,
    dead := false, score := 7, watered_at := 0 }

/-- C2 counterexample: for a live flowering target, the `visit_plant_search`
trace reads the target's dead/flowering state at position 0 and only then
refreshes it at position 1 — the precondition check is NOT evaluated after
the target plant has been refreshed. -/
theorem visit_plant_search_checks_stale_state :
    (visit_plant_search (some floweringPlant) false "ab").2
      = [Ev.readState, Ev.refresh, Ev.pickPetal, Ev.save] ∧
    (visit_plant_search (some floweringPlant) false "ab").2.indexOf Ev.readState
      < (visit_plant_search (some floweringPlant) false "ab").2.indexOf Ev.refresh := by
  refine ⟨by decide, by decide⟩

/-- C2 (amended): self actions dispatched through the authenticate wrapper
run on a plant that has already been refreshed (the wrapped view receives
`refreshFn plant` and the trace begins with the refresh); remote watering
refreshes the target before watering it; but in `visit_plant_search` the
dead/flowering precondition is evaluated on the unrefreshed target state,
with `refresh()` running only afterwards, before `pick_petal`. -/
theorem refresh_before_mutation (refreshFn : Plant → Plant)
    (func : Plant → Response × List Ev) (p : Plant) (uid : String) :
    (authenticate refreshFn func p
      = ((func (refreshFn p)).1, Ev.refresh :: (func (refreshFn p)).2 ++ [Ev.save])) ∧
    ((visit_plant_water (some p) false uid).2 = [Ev.refresh, Ev.water, Ev.save]) ∧
    (p.dead = false → stage_str p = str "flowering" →
      (visit_plant_search (some p) false uid).2
        = [Ev.readState, Ev.refresh, Ev.pickPetal, Ev.save]) := by
  refine ⟨rfl, rfl, ?_⟩
  intro hd hflower
  simp [visit_plant_search, hd, hflower]

/-- Witness for C2 (amended) at a concrete flowering plant, identity refresh
and a trivial wrapped view. -/
theorem refresh_before_mutation_witness :
    (visit_plant_search (some floweringPlant) false "ab").2
      = [Ev.readState, Ev.refresh, Ev.pickPetal, Ev.save] := by
  exact (refresh_before_mutation id
    (fun _ => ({ status := .success, meta := "" }, [])) floweringPlant "ab").2.2
    (by decide) (by decide)

/-- C3: for every plant that is dead or not at stage 4 (flowering), both the
self `search` handler and the remote `visit_plant_search` handler return
BAD_REQUEST without calling `pick_petal`, so the actor's inventory is
unchanged. -/
theorem search_rejects_without_petal (p : Plant) (petalItem : Nat) (inv : Inventory)
    (uid : String) (h : p.dead = true ∨ p.stage ≠ 4) :
    ((search p).1.status = .badRequest ∧
      Ev.pickPetal ∉ (search p).2 ∧
      applyEvents petalItem inv (search p).2 = inv) ∧
    ((visit_plant_search (some p) false uid).1.status = .badRequest ∧
      Ev.pickPetal ∉ (visit_plant_search (some p) false uid).2 ∧
      applyEvents petalItem inv (visit_plant_search (some p) false uid).2 = inv) := by
  have hremote : p.dead = true ∨ stage_str p ≠ str "flowering" := by
    rcases h with h | h
    · exact Or.inl h
    · exact Or.inr (stage_str_ne_flowering h)
  constructor
  · simp [search, h, applyEvents]
  · simp [visit_plant_search, hremote, applyEvents]

/-- Witness for C3: a dead plant is rejected by both handlers and a concrete
inventory is unchanged. -/
theorem search_rejects_without_petal_witness :
    (search deadBob).1.status = GStatus.badRequest ∧
    applyEvents 3 (fun _ => 9) (visit_plant_search (some deadBob) false "ab").2 = fun _ => 9 := by
  have h := search_rejects_without_petal deadBob 3 (fun _ => 9) "ab" (Or.inl (by decide))
  exact ⟨h.1.1, h.2.2.2⟩

/-! ### `visit` handler (views.py lines 541-551)

```python
plants = (
    Plant.all_active()
    .filter(Plant.score > 0, Plant.watered_at >= datetime.now() - timedelta(days=8))
    .order_by(Plant.score.desc())
)
```

The plant table is a list, timestamps are in seconds, and the SQL
`ORDER BY score DESC` is modelled by a merge sort with the
score-descending comparison. -/

/-- Modelled from the spec: `Plant.all_active` (models.py, not among the
provided sources): the plants whose owning user is active. -/
def all_active (db : List Plant) : List Plant :=
  db.filter fun p => p.user_active

/-- One `timedelta(days=8)` in seconds. -/
def eightDays : Int := 8 * 86400

/-- The list of plants built by the `visit` handler.  Note that the query
references only per-plant columns — the requesting user does not appear. -/
def visit (db : List Plant) (now : Int) : List Plant :=
  ((all_active db).filter fun p =>
      decide (0 < p.score) && decide (now - eightDays ≤ p.watered_at)).mergeSort
    fun a b => decide (b.score ≤ a.score)

/-- The plant owned by user 1, for the C5 counterexample. -/
def ownPlant : Plant :=
  { user_id := 1, user_active := true, name := str "mine", stage := 4,
    dead := false, score := 10, watered_at := 1000 }

/-- C5 counterexample: the viewer's own plant is NOT excluded.  With the
database holding exactly the plant owned by user 1 (positive score, watered
now), the list that the `visit` handler renders for user 1 contains user 1's
own plant — the handler's query never mentions the requesting user. -/
theorem visit_contains_own_plant :
    ownPlant ∈ visit [ownPlant] 1000 ∧ ownPlant.user_id = 1 := by
  constructor
  · rw [visit, List.mem_mergeSort, List.mem_filter]
    refine ⟨?_, by decide⟩
    rw [all_active, List.mem_filter]
    exact ⟨List.mem_singleton_self _, by decide⟩
  · decide

/-- C5 (amended): the list produced by the `visit` handler keeps exactly the
active plants with positive score that were watered within the last 8 days,
ordered by score descending; the viewer's own plant is not excluded (the
handler's query does not reference the viewer). -/
theorem visit_list_filtered_and_sorted (db : List Plant) (now : Int) :
    (∀ p ∈ visit db now,
      p.user_active = true ∧ 0 < p.score ∧ now - eightDays ≤ p.watered_at ∧ p ∈ db) ∧
    (∀ p ∈ db, p.user_active = true → 0 < p.score → now - eightDays ≤ p.watered_at →
      p ∈ visit db now) ∧
    (visit db now).Pairwise (fun a b => b.score ≤ a.score) := by
  refine ⟨?_, ?_, ?_⟩
  · intro p hp
    rw [visit, List.mem_mergeSort, List.mem_filter] at hp
    rcases hp with ⟨hact, hcond⟩
    rw [all_active, List.mem_filter] at hact
    simp only [Bool.and_eq_true, decide_eq_true_eq] at hcond
    exact ⟨hact.2, hcond.1, hcond.2, hact.1⟩
  · intro p hp hact hscore hwater
    rw [visit, List.mem_mergeSort, List.mem_filter]
    constructor
    · rw [all_active, List.mem_filter]
      exact ⟨hp, hact⟩
    · simp [hscore, hwater]
  · have h := @List.sorted_mergeSort Plant
      (fun a b : Plant => decide (b.score ≤ a.score))
      (fun a b c hab hbc => by
        simp only [decide_eq_true_eq] at hab hbc ⊢
        exact le_trans hbc hab)
      (fun a b => by
        simp only [Bool.or_eq_true, decide_eq_true_eq]
        exact le_total b.score a.score)
      ((all_active db).filter fun p =>
        decide (0 < p.score) && decide (now - eightDays ≤ p.watered_at))
    rw [visit]
    exact h.imp fun hab => of_decide_eq_true hab

/-- A recently watered active plant of another user, for the C5 witness. -/
def freshPlant : Plant :=
  { user_id := 3, user_active := true, name := str "a", stage := 1,
    dead := false, score := 2, watered_at := 500 }

/-- Witness for C5 (amended) at a concrete database. -/
theorem visit_list_filtered_and_sorted_witness :
    freshPlant ∈ visit [freshPlant] 600 := by
  exact (visit_list_filtered_and_sorted [freshPlant] 600).2.1 freshPlant
    (List.mem_singleton_self _) (by decide) (by decide) (by decide)

/-! ### Inbox messages

`models.Inbox` is not among the provided sources; modelled from the spec
("a one-way message record addressed to the target identity with a
bounded-length subject") plus the fields the handlers use: primary key,
sender, recipient, subject, body, seen flag. -/

structure InboxMsg where
  id : Nat
  user_from : Nat
  user_to : Nat
  subject : Str
  body : Str
  is_seen : Bool
deriving DecidableEq

/-- Modelled from the spec: `Inbox.create(...)` inserts one new row; the
autoincrement primary key is modelled as one past the table length, and a
fresh message is unseen. -/
def inboxCreate (inbox : List InboxMsg) (uFrom uTo : Nat) (subject body : Str) :
    List InboxMsg :=
  inbox ++ [{ id := inbox.length + 1, user_from := uFrom, user_to := uTo,
              subject := subject, body := body, is_seen := false }]

/-! ### `visit_plant_postcard_subject` handler (views.py lines 622-635)

```python
if not request.query:
    return INPUT "Enter the message subject (max 128 chars):"
elif len(request.query) > 128:
    return BAD_REQUEST "Subject exceeds maximum length"
request.session["postcard_subject"] = request.query
return REDIRECT_TEMPORARY ...
```

`subject?` is the session's "postcard_subject" slot (`none` = unset). -/

def visit_plant_postcard_subject (target : Option Nat) (subject? : Option Str)
    (query : Str) : Response × Option Str :=
  match target with
  | none => ({ status := .notFound, meta := "User not found" }, subject?)
  | some _ =>
    if query = [] then
      ({ status := .input, meta := "Enter the message subject (max 128 chars):" }, subject?)
    else if 128 < query.length then
      ({ status := .badRequest, meta := "Subject exceeds maximum length" }, subject?)
    else
      ({ status := .redirectTemporary, meta := "" }, some query)

/-! ### `visit_plant_postcard_send` handler (views.py lines 638-657)

```python
if not request.session.get("postcard_subject"):
    return BAD_REQUEST "Postcard subject cannot be blank."
if not request.user.remove_item(items.postcard):
    return BAD_REQUEST "You do not have any postcards in your inventory."
subject = request.session.pop("postcard_subject")
body = "Hello world!"
Inbox.create(user_from=request.user, user_to=user, subject=subject, body=body)
...
return REDIRECT_TEMPORARY f"/app/visit/{user_id}"
```

`actor` is the sender's user id, `target` the looked-up recipient id
(`none` when `User.get_or_none` misses).  The result carries the updated
session subject slot, the actor's inventory and the Inbox table. -/

def visit_plant_postcard_send (actor : Nat) (target : Option Nat)
    (subject? : Option Str) (inv : Inventory) (inbox : List InboxMsg) :
    Response × Option Str × Inventory × List InboxMsg :=
  match target with
  | none => ({ status := .notFound, meta := "User not found" }, subject?, inv, inbox)
  | some t =>
    if subject? = none ∨ subject? = some [] then
      ({ status := .badRequest, meta := "Postcard subject cannot be blank." },
       subject?, inv, inbox)
    else
      match remove_item inv postcard.item_id 1 with
      | none =>
          ({ status := .badRequest,
             meta := "You do not have any postcards in your inventory." },
           subject?, inv, inbox)
      | some inv2 =>
          ({ status := .redirectTemporary, meta := "/app/visit/" }, none, inv2,
           inboxCreate inbox actor t (subject?.getD []) (str "Hello world!"))

/-- C6: postcard sending creates exactly one inbox message addressed to the
target and consumes exactly one postcard from the actor's inventory when the
session holds a non-empty subject and the actor owns at least one postcard;
with no subject set it is rejected before any inventory change; when
`remove_item` fails it is rejected with no message created and the drafted
subject left intact; and the subject handler only ever stores a subject of at
most 128 characters. -/
theorem postcard_send_consumes_one (actor t : Nat) (subject? : Option Str)
    (inv : Inventory) (inbox : List InboxMsg) (query : Str) :
    (∀ s, subject? = some s → s ≠ [] → 1 ≤ inv postcard.item_id →
      visit_plant_postcard_send actor (some t) subject? inv inbox
        = ({ status := .redirectTemporary, meta := "/app/visit/" }, none,
           fun j => if j = postcard.item_id then inv j - 1 else inv j,
           inbox ++ [{ id := inbox.length + 1, user_from := actor, user_to := t,
                       subject := s, body := str "Hello world!", is_seen := false }])) ∧
    (subject? = none ∨ subject? = some [] →
      visit_plant_postcard_send actor (some t) subject? inv inbox
        = ({ status := .badRequest, meta := "Postcard subject cannot be blank." },
           subject?, inv, inbox)) ∧
    (∀ s, subject? = some s → s ≠ [] → inv postcard.item_id < 1 →
      visit_plant_postcard_send actor (some t) subject? inv inbox
        = ({ status := .badRequest,
             meta := "You do not have any postcards in your inventory." },
           subject?, inv, inbox)) ∧
    (∀ target, (visit_plant_postcard_subject target subject? query).2 ≠ subject? →
      (visit_plant_postcard_subject target subject? query).2 = some query ∧
      query.length ≤ 128) := by
  refine ⟨?_, ?_, ?_, ?_⟩
  · intro s hsub hne hqty
    subst hsub
    have hblank : ¬((some s : Option Str) = none ∨ (some s : Option Str) = some []) := by
      simp [hne]
    have hrm : remove_item inv postcard.item_id 1
        = some fun j => if j = postcard.item_id then inv j - 1 else inv j := by
      simp [remove_item, hqty]
    simp [visit_plant_postcard_send, hne, hrm, inboxCreate]
  · intro hblank
    simp only [visit_plant_postcard_send, if_pos hblank]
  · intro s hsub hne hqty
    subst hsub
    have hrm : remove_item inv postcard.item_id 1 = none := by
      simp only [remove_item, ite_eq_right_iff]
      intro hle
      omega
    simp [visit_plant_postcard_send, hne, hrm]
  · intro target hchanged
    match target with
    | none => exact absurd rfl hchanged
    | some _ =>
      by_cases hq : query = []
      · rw [visit_plant_postcard_subject] at hchanged
        simp [hq] at hchanged
      · by_cases hlen : 128 < query.length
        · rw [visit_plant_postcard_subject] at hchanged
          simp [hq, hlen] at hchanged
        · refine ⟨?_, by omega⟩
          rw [visit_plant_postcard_subject]
          simp [hq, hlen]

/-- Witness for C6: sending with drafted subject "hi" and one postcard
appends exactly the one message to the target and decrements the postcard
slot; and the subject handler on a 2-character query stores it. -/
theorem postcard_send_consumes_one_witness :
    visit_plant_postcard_send 1 (some 2) (some (str "hi")) (fun _ => 1) []
      = ({ status := .redirectTemporary, meta := "/app/visit/" }, none,
         fun j => if j = postcard.item_id then (1 : Int) - 1 else 1,
         [{ id := 1, user_from := 1, user_to := 2, subject := str "hi",
            body := str "Hello world!", is_seen := false }]) := by
  exact (postcard_send_consumes_one 1 2 (some (str "hi")) (fun _ => 1) [] []).1
    (str "hi") rfl (by decide) (by decide)

/-! ### `mailbox_view` handler (views.py lines 440-451)

```python
message = Inbox.get_or_none(id=message_id, user_to=request.user)
if message is None:
    return BAD_REQUEST "You shouldn't be here!"
message.is_seen = True
message.save()
return SUCCESS <rendered message>
```

`Inbox.get_or_none(id=..., user_to=...)` returns a row matching BOTH
filters, modelled as the first such row of the table; `save()` writes that
row back.  The second component of the result is the message handed to the
template (what the response reveals). -/

/-- Set `is_seen := true` on the row at position `i`. -/
def setSeenAt : List InboxMsg → Nat → List InboxMsg
  | [], _ => []
  | m :: rest, 0 => { m with is_seen := true } :: rest
  | m :: rest, Nat.succ i => m :: setSeenAt rest i

def mailbox_view (inbox : List InboxMsg) (requester : Nat) (message_id : Nat) :
    Response × Option InboxMsg × List InboxMsg :=
  match inbox.findIdx? fun m => (m.id == message_id) && (m.user_to == requester) with
  | none => ({ status := .badRequest, meta := "You shouldn't be here!" }, none, inbox)
  | some i =>
      ({ status := .success, meta := "" },
       (inbox[i]?).map fun m => { m with is_seen := true },
       setSeenAt inbox i)

/-- `setSeenAt` only touches position `i`. -/
theorem setSeenAt_getElem? (l : List InboxMsg) (i j : Nat) :
    (setSeenAt l i)[j]? =
      if i = j then (l[j]?).map (fun m => { m with is_seen := true }) else l[j]? := by
  induction l generalizing i j with
  | nil => simp [setSeenAt]
  | cons m rest ih =>
    match i, j with
    | 0, 0 => simp [setSeenAt]
    | 0, Nat.succ j => simp [setSeenAt]
    | Nat.succ i, 0 => simp [setSeenAt]
    | Nat.succ i, Nat.succ j =>
      simp only [setSeenAt, List.getElem?_cons_succ, ih, Nat.succ_eq_add_one,
        Nat.add_right_cancel_iff]

/-- C10: `mailbox_view` sets `is_seen` only on an inbox row whose recipient
is the requesting user; if no row with that id is addressed to the requester
it returns BAD_REQUEST with no row modified; the rendered message, when any,
is addressed to the requester; and every row the handler changes is the
requested row of the requester, merely marked seen. -/
theorem mailbox_view_only_own_mail (inbox : List InboxMsg) (u mid : Nat) :
    ((∀ m ∈ inbox, ¬(m.id = mid ∧ m.user_to = u)) →
      mailbox_view inbox u mid
        = ({ status := .badRequest, meta := "You shouldn't be here!" }, none, inbox)) ∧
    (∀ m : InboxMsg, (mailbox_view inbox u mid).2.1 = some m →
      m.user_to = u ∧ m.id = mid) ∧
    (∀ j : Nat, (mailbox_view inbox u mid).2.2[j]? ≠ inbox[j]? →
      ∃ m : InboxMsg, inbox[j]? = some m ∧ m.user_to = u ∧ m.id = mid ∧
        (mailbox_view inbox u mid).2.2[j]? = some { m with is_seen := true }) := by
  refine ⟨?_, ?_, ?_⟩
  · intro hnone
    have hfind : (inbox.findIdx? fun m => (m.id == mid) && (m.user_to == u)) = none := by
      rw [List.findIdx?_eq_none_iff]
      intro m hm
      have := hnone m hm
      simp only [Bool.and_eq_true, beq_iff_eq, Bool.and_eq_false_iff]
      by_cases h1 : m.id = mid
      · right
        simp only [beq_eq_false_iff_ne, ne_eq]
        intro h2
        exact this ⟨h1, h2⟩
      · left
        simp [h1]
    simp [mailbox_view, hfind]
  · intro m hm
    rw [mailbox_view] at hm
    split at hm
    · exact absurd hm (by simp)
    · next i hfind =>
      obtain ⟨hi, hp, -⟩ := List.findIdx?_eq_some_iff_getElem.mp hfind
      rw [List.getElem?_eq_getElem hi] at hm
      simp only [Option.map_some', Option.some.injEq] at hm
      simp only [Bool.and_eq_true, beq_iff_eq] at hp
      rw [← hm]
      exact ⟨hp.2, hp.1⟩
  · intro j hj
    rw [mailbox_view] at hj ⊢
    split at hj
    · exact absurd rfl hj
    · next i hfind =>
      obtain ⟨hi, hp, -⟩ := List.findIdx?_eq_some_iff_getElem.mp hfind
      simp only [Bool.and_eq_true, beq_iff_eq] at hp
      simp only [setSeenAt_getElem?] at hj ⊢
      by_cases hij : i = j
      · subst hij
        refine ⟨inbox[i], ?_, hp.2, hp.1, ?_⟩
        · simp [List.getElem?_eq_getElem hi]
        · simp [List.getElem?_eq_getElem hi]
      · exact absurd (by simp [hij]) hj

/-- Witness for C10: with the single message addressed to user 2, a request
by user 1 is rejected and the table is unchanged. -/
theorem mailbox_view_only_own_mail_witness :
    mailbox_view [{ id := 1, user_from := 3, user_to := 2, subject := str "s",
                    body := str "b", is_seen := false }] 1 1
      = ({ status := GStatus.badRequest, meta := "You shouldn't be here!" }, none,
         [{ id := 1, user_from := 3, user_to := 2, subject := str "s",
            body := str "b", is_seen := false }]) := by
  exact (mailbox_view_only_own_mail
    [{ id := 1, user_from := 3, user_to := 2, subject := str "s",
       body := str "b", is_seen := false }] 1 1).1 (by decide)

/-! ### `files` handler (views.py lines 225-245)

```python
def files(request, path):
    url_path = pathlib.Path(path.strip("/"))
    filename = pathlib.Path(os.path.normpath(str(url_path)))
    if filename.is_absolute() or str(filename).startswith(".."):
        return NOT_FOUND "Not Found"
    filepath = FILES_DIR / filename
    if not filepath.exists():
        return NOT_FOUND "Not Found"
    ...
    body = filepath.read_bytes()
    return SUCCESS body
```

The posix path functions are embedded below: `strip("/")`, the component
split/join, `str(PurePosixPath(...))` (collapse repeated separators, drop
"." components, empty prints as "."), and `posixpath.normpath`.  The second
`pathlib.Path(...)` wrapper around the normpath output is omitted: normpath
output is already in the canonical form whose `str` is itself.
`Path.is_absolute()` on posix is "starts with '/'". -/

/-- `path.strip("/")`. -/
def stripSlashes (s : Str) : Str :=
  ((s.dropWhile fun c => c == '/').reverse.dropWhile fun c => c == '/').reverse

/-- Split a string at `'/'` separators (never returns `[]`). -/
def splitSep : Str → List Str
  | [] => [[]]
  | c :: cs =>
    match splitSep cs with
    | [] => [[]]
    | r :: rs => if c = '/' then [] :: r :: rs else (c :: r) :: rs

/-- Join components with `'/'`. -/
def joinSlash : List Str → Str
  | [] => []
  | [c] => c
  | c :: c2 :: rest => c ++ '/' :: joinSlash (c2 :: rest)

/-- `str(pathlib.PurePosixPath(s))` for the relative paths arising after
`strip("/")`: drop empty and "." components; the empty path prints as ".". -/
def pathStr (s : Str) : Str :=
  let comps := (splitSep s).filter fun c => !(c == [] || c == str ".")
  if comps = [] then str "." else joinSlash comps

/-- One step of the component loop of `posixpath.normpath`:

```python
for comp in comps:
    if comp in ('', '.'):
        continue
    if (comp != '..' or (not initial_slashes and not new_comps) or
         (new_comps and new_comps[-1] == '..')):
        new_comps.append(comp)
    elif new_comps:
        new_comps.pop()
```
-/
def normStep (hasInitialSlashes : Bool) (acc : List Str) (comp : Str) : List Str :=
  if comp = [] ∨ comp = str "." then acc
  else if comp ≠ str ".." ∨ (hasInitialSlashes = false ∧ acc = []) ∨
           acc.getLast? = some (str "..") then
    acc ++ [comp]
  else if acc ≠ [] then acc.dropLast
  else acc

/-- The count of initial separators preserved by `posixpath.normpath`
(POSIX prints exactly two leading slashes specially). -/
def initialSlashes (p : Str) : Nat :=
  if (str "//").isPrefixOf p ∧ ¬(str "///").isPrefixOf p then 2
  else if (str "/").isPrefixOf p then 1
  else 0

/-- Python `posixpath.normpath`. -/
def normpath (p : Str) : Str :=
  if p = [] then str "."
  else
    let isl := initialSlashes p
    let comps := (splitSep p).foldl (normStep (decide (0 < isl))) []
    let out := List.replicate isl '/' ++ joinSlash comps
    if out = [] then str "." else out

/-- The filesystem as the handler sees it: an existence oracle and file
contents by path. -/
structure FileSystem where
  fileExists : Str → Bool
  readBytes : Str → List Nat

inductive FilesResult where
  | notFound
  | served (filepath : Str) (body : List Nat)
deriving DecidableEq

/-- The `filename` computed by the handler from the route's path parameter. -/
def filesFilename (path : Str) : Str :=
  normpath (pathStr (stripSlashes path))

def files (fs : FileSystem) (filesDir : Str) (path : Str) : FilesResult :=
  let filename := filesFilename path
  if (str "/").isPrefixOf filename ∨ (str "..").isPrefixOf filename then
    .notFound
  else
    let filepath := filesDir ++ '/' :: filename
    if fs.fileExists filepath then
      .served filepath (fs.readBytes filepath)
    else
      .notFound

/-! Component-level facts about the path functions. -/

/-- `splitSep` never returns the empty list. -/
theorem splitSep_ne_nil (s : Str) : splitSep s ≠ [] := by
  cases s with
  | nil => simp [splitSep]
  | cons c cs =>
    rw [splitSep]
    split
    · simp
    · split <;> simp

/-- No component produced by `splitSep` contains the separator. -/
theorem splitSep_no_slash (s : Str) : ∀ c ∈ splitSep s, '/' ∉ c := by
  induction s with
  | nil =>
    intro c hc
    simp only [splitSep, List.mem_singleton] at hc
    subst hc
    simp
  | cons a as ih =>
    intro c hc
    rw [splitSep] at hc
    rcases hsp : splitSep as with _ | ⟨r, rs⟩
    · exact absurd hsp (splitSep_ne_nil as)
    · have hr : '/' ∉ r := ih r (hsp ▸ List.mem_cons_self r rs)
      by_cases ha : a = '/'
      · simp only [if_pos ha] at hc
        rw [hsp] at hc
        rcases List.mem_cons.mp hc with hc1 | hc2
        · subst hc1; simp
        · exact ih c (hsp ▸ hc2)
      · simp only [if_neg ha] at hc
        rw [hsp] at hc
        rcases List.mem_cons.mp hc with hc1 | hc2
        · subst hc1
          intro hmem
          rcases List.mem_cons.mp hmem with h1 | h2
          · exact ha h1.symm
          · exact hr h2
        · exact ih c (hsp ▸ List.mem_cons_of_mem r hc2)

/-- Splitting a separator-free string yields that single component. -/
theorem splitSep_no_sep (c : Str) (h : '/' ∉ c) : splitSep c = [c] := by
  induction c with
  | nil => rfl
  | cons a as ih =>
    have ha : a ≠ '/' := fun heq => h (heq ▸ List.mem_cons_self a as)
    have has : '/' ∉ as := fun hmem => h (List.mem_cons_of_mem a hmem)
    rw [splitSep, ih has]
    simp [ha]

/-- Splitting `c ++ '/' :: t` with separator-free `c` peels off `c`. -/
theorem splitSep_append_sep (c t : Str) (h : '/' ∉ c) :
    splitSep (c ++ '/' :: t) = c :: splitSep t := by
  induction c with
  | nil =>
    rw [List.nil_append, splitSep]
    rcases hsp : splitSep t with _ | ⟨r, rs⟩
    · exact absurd hsp (splitSep_ne_nil t)
    · simp
  | cons a as ih =>
    have ha : a ≠ '/' := fun heq => h (heq ▸ List.mem_cons_self a as)
    have has : '/' ∉ as := fun hmem => h (List.mem_cons_of_mem a hmem)
    rw [List.cons_append, splitSep, ih has]
    simp [ha]

/-- Splitting is a left inverse of joining for nonempty separator-free
component lists. -/
theorem splitSep_joinSlash (comps : List Str) (h1 : comps ≠ [])
    (h2 : ∀ c ∈ comps, '/' ∉ c) : splitSep (joinSlash comps) = comps := by
  induction comps with
  | nil => exact absurd rfl h1
  | cons c rest ih =>
    cases rest with
    | nil =>
      rw [joinSlash]
      exact splitSep_no_sep c (h2 c (List.mem_cons_self c []))
    | cons c2 rest2 =>
      rw [joinSlash, splitSep_append_sep c _ (h2 c (List.mem_cons_self c _)),
        ih (by simp) fun x hx => h2 x (List.mem_cons_of_mem c hx)]

/-- The first component is a prefix of the join. -/
theorem isPrefixOf_joinSlash (c : Str) (t : List Str) :
    c.isPrefixOf (joinSlash (c :: t)) = true := by
  cases t with
  | nil =>
    rw [joinSlash, List.isPrefixOf_iff_prefix]
  | cons c2 r =>
    rw [joinSlash, List.isPrefixOf_iff_prefix]
    exact List.prefix_append c _

/-- A join of nonempty separator-free components never starts with the
separator. -/
theorem joinSlash_head_ne_sep (comps : List Str) (hne : comps ≠ [])
    (hcomps : ∀ c ∈ comps, c ≠ [] ∧ '/' ∉ c) :
    ∀ t, joinSlash comps ≠ '/' :: t := by
  intro t heq
  cases comps with
  | nil => exact hne rfl
  | cons c rest =>
    have hc := hcomps c (List.mem_cons_self c rest)
    rcases hcc : c with _ | ⟨a, as⟩
    · exact hc.1 hcc
    cases rest with
    | nil =>
      rw [joinSlash, hcc] at heq
      injection heq with h1 h2
      exact hc.2 (hcc ▸ (h1 ▸ List.mem_cons_self a as))
    | cons c2 r2 =>
      rw [joinSlash, hcc, List.cons_append] at heq
      injection heq with h1 h2
      exact hc.2 (hcc ▸ (h1 ▸ List.mem_cons_self a as))

/-- Invariant of the normpath accumulator for relative inputs: a (possibly
empty) block of ".." components followed by components other than "..", with
every component nonempty, not ".", and free of '/'. -/
def NormAcc (acc : List Str) : Prop :=
  (∃ k rest, acc = List.replicate k (str "..") ++ rest ∧ str ".." ∉ rest) ∧
  ∀ c ∈ acc, c ≠ [] ∧ c ≠ str "." ∧ '/' ∉ c

theorem normAcc_nil : NormAcc [] := ⟨⟨0, [], rfl, by simp⟩, by simp⟩

/-- `normStep false` preserves the accumulator invariant. -/
theorem normAcc_step (acc : List Str) (comp : Str) (hacc : NormAcc acc)
    (hcomp : '/' ∉ comp) : NormAcc (normStep false acc comp) := by
  obtain ⟨⟨k, rest, hshape, hnot⟩, hall⟩ := hacc
  rw [normStep]
  by_cases h1 : comp = [] ∨ comp = str "."
  · rw [if_pos h1]
    exact ⟨⟨k, rest, hshape, hnot⟩, hall⟩
  · rw [if_neg h1]
    push_neg at h1
    by_cases h2 : comp ≠ str ".." ∨ ((false : Bool) = false ∧ acc = []) ∨
        acc.getLast? = some (str "..")
    · rw [if_pos h2]
      have hallapp : ∀ c ∈ acc ++ [comp], c ≠ [] ∧ c ≠ str "." ∧ '/' ∉ c := by
        intro c hc
        rcases List.mem_append.mp hc with hc | hc
        · exact hall c hc
        · rw [List.mem_singleton] at hc
          subst hc
          exact ⟨h1.1, h1.2, hcomp⟩
      by_cases hdd : comp = str ".."
      · subst hdd
        rcases h2 with h2 | ⟨⟨-, hnil⟩ | hlast⟩
        · exact absurd rfl h2
        · subst hnil
          exact ⟨⟨1, [], by simp, by simp⟩, hallapp⟩
        · have hrest : rest = [] := by
            rcases List.eq_nil_or_concat rest with h | ⟨L, b, hLb⟩
            · exact h
            · exfalso
              rw [hLb, List.concat_eq_append, ← List.append_assoc] at hshape
              rw [hshape, List.getLast?_concat] at hlast
              have hb : b = str ".." := Option.some.inj hlast
              apply hnot
              rw [hLb, List.concat_eq_append, hb]
              exact List.mem_append_right _ (List.mem_singleton_self _)
          subst hrest
          rw [List.append_nil] at hshape
          refine ⟨⟨k + 1, [], ?_, by simp⟩, hallapp⟩
          rw [hshape, List.replicate_succ' k, List.append_nil]
      · refine ⟨⟨k, rest ++ [comp], ?_, ?_⟩, hallapp⟩
        · rw [hshape, List.append_assoc]
        · intro hmem
          rcases List.mem_append.mp hmem with h | h
          · exact hnot h
          · rw [List.mem_singleton] at h
            exact hdd h.symm
    · rw [if_neg h2]
      push_neg at h2
      have hdd : comp = str ".." := h2.1
      have hne : acc ≠ [] := h2.2.1 rfl
      have hlast : acc.getLast? ≠ some (str "..") := h2.2.2
      rw [if_pos hne]
      have hrest : rest ≠ [] := by
        intro h
        subst h
        rw [List.append_nil] at hshape
        rcases Nat.eq_zero_or_pos k with hk | hk
        · subst hk
          simp at hshape
          exact hne hshape
        · obtain ⟨k', rfl⟩ : ∃ k', k = k' + 1 := ⟨k - 1, by omega⟩
          rw [hshape, List.replicate_succ' k', List.getLast?_concat] at hlast
          exact hlast rfl
      rcases List.eq_nil_or_concat rest with h | ⟨L, b, hLb⟩
      · exact absurd h hrest
      refine ⟨⟨k, L, ?_, ?_⟩, ?_⟩
      · rw [hshape, hLb, List.concat_eq_append, ← List.append_assoc, List.dropLast_concat]
      · intro h
        apply hnot
        rw [hLb, List.concat_eq_append]
        exact List.mem_append_left _ h
      · intro c hc
        exact hall c ((List.dropLast_sublist acc).subset hc)

/-- The whole normpath component loop preserves the invariant. -/
theorem normAcc_foldl (l : List Str) (acc : List Str) (hacc : NormAcc acc)
    (hl : ∀ c ∈ l, '/' ∉ c) : NormAcc (l.foldl (normStep false) acc) := by
  induction l generalizing acc with
  | nil => exact hacc
  | cons c cs ih =>
    rw [List.foldl_cons]
    exact ih (normStep false acc c)
      (normAcc_step acc c hacc (hl c (List.mem_cons_self c cs)))
      fun x hx => hl x (List.mem_cons_of_mem c hx)

/-- `pathStr` yields "." or a slash-join of nonempty slash-free components. -/
theorem pathStr_shape (s : Str) :
    pathStr s = str "." ∨
    ∃ comps, pathStr s = joinSlash comps ∧ comps ≠ [] ∧
      ∀ c ∈ comps, c ≠ [] ∧ '/' ∉ c := by
  rw [pathStr]
  by_cases h : ((splitSep s).filter fun c => !(c == [] || c == str ".")) = []
  · rw [if_pos h]
    exact Or.inl rfl
  · rw [if_neg h]
    refine Or.inr ⟨_, rfl, h, ?_⟩
    intro c hc
    rw [List.mem_filter] at hc
    have hne : c ≠ [] := by
      intro hnil
      subst hnil
      simp at hc
    exact ⟨hne, splitSep_no_slash s c hc.1⟩

/-- A string not starting with '/' has no `"/"`- or `"//"`-prefix. -/
theorem not_slash_prefixes {s : Str} (hs : ∀ t, s ≠ '/' :: t) :
    ((str "//").isPrefixOf s) = false ∧ ((str "/").isPrefixOf s) = false := by
  cases s with
  | nil => exact ⟨rfl, rfl⟩
  | cons c t =>
    have hc : ('/' == c) = false := by
      rw [beq_eq_false_iff_ne]
      intro h
      exact hs t (by rw [h])
    constructor
    · show (('/' == c) && _) = false
      rw [hc, Bool.false_and]
    · show (('/' == c) && _) = false
      rw [hc, Bool.false_and]

/-- "." does not start with '/'. -/
theorem dot_ne_slash_cons : ∀ t, str "." ≠ '/' :: t := by
  intro t h
  have : '.' = '/' := by injection h
  exact absurd this (by decide)

/-- `normpath` of a string not starting with '/' is "." or the join of an
invariant-satisfying component list. -/
theorem normpath_relative (s : Str) (hsrel : ∀ t, s ≠ '/' :: t) :
    normpath s = str "." ∨
    ∃ comps, normpath s = joinSlash comps ∧ comps ≠ [] ∧ NormAcc comps := by
  rw [normpath]
  by_cases hnil : s = []
  · rw [if_pos hnil]
    exact Or.inl rfl
  · rw [if_neg hnil]
    have hpre := not_slash_prefixes hsrel
    have hisl : initialSlashes s = 0 := by
      rw [initialSlashes, if_neg, if_neg]
      · rw [hpre.2]
        simp
      · rintro ⟨h2, -⟩
        rw [hpre.1] at h2
        exact absurd h2 (by simp)
    rw [hisl]
    simp only [List.replicate_zero, List.nil_append]
    have hacc : NormAcc ((splitSep s).foldl (normStep (decide (0 < 0))) []) := by
      have hfalse : (decide (0 < 0)) = false := by decide
      rw [hfalse]
      exact normAcc_foldl (splitSep s) [] normAcc_nil (splitSep_no_slash s)
    rcases hcs : (splitSep s).foldl (normStep (decide (0 < 0))) [] with _ | ⟨c0, cr⟩
    · rw [if_pos (show joinSlash [] = [] from rfl)]
      exact Or.inl rfl
    · by_cases hout : joinSlash (c0 :: cr) = []
      · rw [if_pos hout]
        exact Or.inl rfl
      · rw [if_neg hout]
        exact Or.inr ⟨c0 :: cr, rfl, by simp, hcs ▸ hacc⟩

/-- The handler's `filename` is "." or an invariant-satisfying join. -/
theorem filesFilename_shape (path : Str) :
    filesFilename path = str "." ∨
    ∃ comps, filesFilename path = joinSlash comps ∧ comps ≠ [] ∧ NormAcc comps := by
  rw [filesFilename]
  apply normpath_relative
  rcases pathStr_shape (stripSlashes path) with h | ⟨comps, h, hne, hcomps⟩
  · rw [h]
    exact dot_ne_slash_cons
  · rw [h]
    exact joinSlash_head_ne_sep comps hne hcomps

/-- If the normalized filename does not start with "..", none of its
components is "..". -/
theorem filesFilename_no_dotdot (path : Str)
    (hdd : ((str "..").isPrefixOf (filesFilename path)) = false) :
    str ".." ∉ splitSep (filesFilename path) := by
  rcases filesFilename_shape path with h | ⟨comps, h, hne, hacc⟩
  · rw [h]
    decide
  · rw [h] at hdd ⊢
    obtain ⟨⟨k, rest, hshape, hnot⟩, hall⟩ := hacc
    have hk : k = 0 := by
      by_contra hk0
      obtain ⟨k', rfl⟩ : ∃ k', k = k' + 1 := ⟨k - 1, by omega⟩
      rw [List.replicate_succ, List.cons_append] at hshape
      have hpref : (str "..").isPrefixOf (joinSlash comps) = true := by
        rw [hshape]
        exact isPrefixOf_joinSlash (str "..") _
      rw [hpref] at hdd
      exact absurd hdd (by decide)
    subst hk
    rw [List.replicate_zero, List.nil_append] at hshape
    rw [splitSep_joinSlash comps hne fun c hc => (hall c hc).2.2, hshape]
    exact hnot

/-- C9: the files handler serves bytes only from under FILES_DIR: when the
normalized path is absolute or begins with "..", or the resolved file does
not exist, it returns NOT_FOUND and reads no file (only the served branch
reads); a served response reads exactly `FILES_DIR/<filename>` where the
normalized filename is relative and free of ".." components, hence inside
FILES_DIR. -/
theorem files_serves_only_within (fs : FileSystem) (filesDir path : Str) :
    (((str "/").isPrefixOf (filesFilename path) = true ∨
        (str "..").isPrefixOf (filesFilename path) = true) →
      files fs filesDir path = FilesResult.notFound) ∧
    (fs.fileExists (filesDir ++ '/' :: filesFilename path) = false →
      files fs filesDir path = FilesResult.notFound) ∧
    (∀ fp body, files fs filesDir path = FilesResult.served fp body →
      fp = filesDir ++ '/' :: filesFilename path ∧
      fs.fileExists fp = true ∧
      body = fs.readBytes fp ∧
      str ".." ∉ splitSep (filesFilename path) ∧
      (str "/").isPrefixOf (filesFilename path) = false) := by
  refine ⟨?_, ?_, ?_⟩
  · intro hg
    simp only [files]
    rw [if_pos hg]
  · intro hex
    simp only [files]
    by_cases hg : ((str "/").isPrefixOf (filesFilename path) = true ∨
        (str "..").isPrefixOf (filesFilename path) = true)
    · rw [if_pos hg]
    · rw [if_neg hg, if_neg (by simp [hex])]
  · intro fp body hserved
    simp only [files] at hserved
    by_cases hg : ((str "/").isPrefixOf (filesFilename path) = true ∨
        (str "..").isPrefixOf (filesFilename path) = true)
    · rw [if_pos hg] at hserved
      exact absurd hserved (by simp)
    · rw [if_neg hg] at hserved
      by_cases hex : fs.fileExists (filesDir ++ '/' :: filesFilename path) = true
      · rw [if_pos hex] at hserved
        cases hserved
        push_neg at hg
        refine ⟨rfl, hex, rfl, ?_, ?_⟩
        · exact filesFilename_no_dotdot path (Bool.eq_false_iff.mpr hg.2)
        · exact Bool.eq_false_iff.mpr hg.1
      · rw [if_neg hex] at hserved
        exact absurd hserved (by simp)

/-- Witness for C9: a request for "../x" is refused outright, and a request
for "a.txt" on a filesystem where it exists is served from inside FILES_DIR. -/
theorem files_serves_only_within_witness :
    files ⟨fun _ => true, fun _ => [7]⟩ (str "files") (str "../x")
      = FilesResult.notFound ∧
    ((str "/").isPrefixOf (filesFilename (str "a.txt")) = false ∧
      str ".." ∉ splitSep (filesFilename (str "a.txt"))) := by
  constructor
  · exact (files_serves_only_within ⟨fun _ => true, fun _ => [7]⟩ (str "files")
      (str "../x")).1 (Or.inr (by decide))
  · have h := (files_serves_only_within ⟨fun _ => true, fun _ => [7]⟩ (str "files")
      (str "a.txt")).2.2 (str "files" ++ '/' :: filesFilename (str "a.txt")) [7] (by decide)
    exact ⟨h.2.2.2.2, h.2.2.2.1⟩

end Astrobotany
